import Mathlib

/-!
# Verification of the pow3r.build status/validation/merge engine

Shallow embedding of the core subsystem of the repository:
* `src/status_utils.py` — status normalization and overall-status calculation
* `src/status_v3.py` — reliability scoring
* `src/abacus_validation_system.py` — rule execution and quality-gate evaluation
* `src/status_aggregator.py` — multi-source graph merge and inferred edges

Python floats are modelled by `ℚ` (exact rationals).  The two float
comparisons `count > len(nodes) * 0.3` and `count > len(nodes) * 0.5` are
modelled by the exact conditions `10*count > 3*n` and `2*count > n`; these
agree with IEEE double arithmetic for every realistic list length.
Python `int()` truncation toward zero and `//` floor division are modelled
exactly; `round(x, 3)` is modelled by round-half-to-even on rationals.
-/

namespace StatusUtils

/-- `LEGACY_TO_NEW` mapping from `src/status_utils.py`. -/
def LEGACY_TO_NEW : List (String × String) :=
  [("green", "built"), ("orange", "building"), ("red", "broken"), ("gray", "backlogged")]

/-- `NEW_TO_LEGACY` mapping from `src/status_utils.py`. -/
def NEW_TO_LEGACY : List (String × String) :=
  [("built", "green"), ("building", "orange"), ("broken", "red"),
   ("backlogged", "gray"), ("blocked", "orange"), ("burned", "gray")]

/-- `STATUS_PROGRESS` defaults from `src/status_utils.py`. -/
def STATUS_PROGRESS : List (String × Int) :=
  [("built", 100), ("building", 50), ("broken", 75),
   ("backlogged", 0), ("blocked", 40), ("burned", 0)]

/-- Python `dict.get(k, default)` over an association list. -/
def dictGet {α : Type} (m : List (String × α)) (k : String) (dflt : α) : α :=
  match m.find? (fun p => p.1 == k) with
  | some p => p.2
  | none => dflt

/-- `convert_legacy_to_new` from `src/status_utils.py`. -/
def convert_legacy_to_new (s : String) : String := dictGet LEGACY_TO_NEW s "backlogged"

/-- `convert_new_to_legacy` from `src/status_utils.py`. -/
def convert_new_to_legacy (s : String) : String := dictGet NEW_TO_LEGACY s "gray"

/-- The `quality` sub-dict of a status: optional `qualityScore` and `notes` keys. -/
structure Quality where
  qualityScore : Option ℚ := none
  notes : Option String := none
deriving DecidableEq, Repr

/-- The `legacy` sub-dict of a status: `phase` key, optional `completeness` key. -/
structure LegacyInfo where
  phase : String
  completeness : Option ℚ := none
deriving DecidableEq, Repr

/-- A status dict as `normalize_status` may receive it: each Python key is an
`Option` field (`none` = key absent). -/
structure StatusDict where
  state : Option String := none
  progress : Option Int := none
  quality : Option Quality := none
  legacy : Option LegacyInfo := none
  phase : Option String := none
  completeness : Option ℚ := none
  qualityScore : Option ℚ := none
  notes : Option String := none
deriving DecidableEq, Repr

/-- The input union type of `normalize_status`: a string, a dict, or anything
else (`missing`, e.g. `None`). -/
inductive StatusInput where
  | str (s : String)
  | dict (d : StatusDict)
  | missing
deriving DecidableEq, Repr

/-- The fully-normalized status dict returned by `normalize_status`: always has
exactly the keys `state`, `progress`, `quality`, `legacy`. -/
structure StatusInfo where
  state : String
  progress : Int
  quality : Quality
  legacy : LegacyInfo
deriving DecidableEq, Repr

/-- Kernel-computable floor of a rational (equal to `⌊q⌋`, see `qfloor_eq_floor`). -/
def qfloor (q : ℚ) : Int := q.num / (q.den : Int)

/-- Python `int()` on a rational: truncation toward zero. -/
def pyInt (q : ℚ) : Int := if 0 ≤ q then qfloor q else -qfloor (-q)

/-- The `new_statuses` list inside `normalize_status`. -/
def new_statuses : List String :=
  ["building", "backlogged", "blocked", "burned", "built", "broken"]

/-- `normalize_status` from `src/status_utils.py` (lines 51-136), branch for
branch: new-format dict (has `state`), legacy dict (has `phase`), string
(new set / legacy fallback), and the default fallback. -/
def normalize_status : StatusInput → StatusInfo
  | .dict d =>
    match d.state with
    | some st =>
        { state := st
          progress := d.progress.getD (dictGet STATUS_PROGRESS st 0)
          quality := d.quality.getD {}
          legacy := d.legacy.getD { phase := convert_new_to_legacy st } }
    | none =>
      match d.phase with
      | some ph =>
          let completeness := d.completeness.getD (1/2)
          { state := convert_legacy_to_new ph
            progress := pyInt (completeness * 100)
            quality := { qualityScore := some (d.qualityScore.getD (7/10))
                         notes := some (d.notes.getD "") }
            legacy := { phase := ph, completeness := some completeness } }
      | none =>
          { state := "backlogged", progress := 0, quality := {},
            legacy := { phase := "gray" } }
  | .str s =>
      if s ∈ new_statuses then
        { state := s
          progress := dictGet STATUS_PROGRESS s 0
          quality := {}
          legacy := { phase := convert_new_to_legacy s } }
      else
        { state := convert_legacy_to_new s
          progress := if s == "green" then 100 else if s == "orange" then 50 else 0
          quality := {}
          legacy := { phase := s } }
  | .missing =>
      { state := "backlogged", progress := 0, quality := {},
        legacy := { phase := "gray" } }

/-- Reinjecting the output of `normalize_status` as an input dict (the Python
return value is a dict carrying exactly the four keys). -/
def StatusInfo.toDict (si : StatusInfo) : StatusDict :=
  { state := some si.state, progress := some si.progress,
    quality := some si.quality, legacy := some si.legacy }

/-- `get_status_state` from `src/status_utils.py`. -/
def get_status_state (s : StatusInput) : String := (normalize_status s).state

/-- `get_status_progress` from `src/status_utils.py`. -/
def get_status_progress (s : StatusInput) : Int := (normalize_status s).progress

/-- `create_status_info` from `src/status_utils.py` (quality-score/notes
arguments omitted: they are `None` at the one call site embedded here,
leaving `quality` empty). -/
def create_status_info (state : String) (progress? : Option Int) : StatusInfo :=
  let progress := progress?.getD (dictGet STATUS_PROGRESS state 0)
  { state := state
    progress := max 0 (min 100 progress)
    quality := {}
    legacy := { phase := convert_new_to_legacy state
                completeness := some ((progress : ℚ) / 100) } }

/-- A node as consumed by `calculate_overall_status`: only its optional
`status` key is read (`node.get('status', 'backlogged')`). -/
structure GraphNode where
  status : Option StatusInput := none
deriving DecidableEq, Repr

/-- `node.get('status', 'backlogged')`. -/
def nodeStatus (n : GraphNode) : StatusInput := n.status.getD (.str "backlogged")

/-- The per-state tally `status_counts` built by the loop in
`calculate_overall_status`: the count of nodes whose normalized state is `st`. -/
def statusCount (nodes : List GraphNode) (st : String) : ℕ :=
  nodes.countP (fun n => get_status_state (nodeStatus n) == st)

/-- The `total_progress` accumulator of `calculate_overall_status`. -/
def totalProgress (nodes : List GraphNode) : Int :=
  (nodes.map (fun n => get_status_progress (nodeStatus n))).sum

/-- `calculate_overall_status` from `src/status_utils.py` (lines 187-236).
The float comparisons `> n*0.3` / `> n*0.5` are modelled exactly as
`10*count > 3*n` / `2*count > n`; `//` is floor division (`Int.fdiv`).
The Python return value also carries a `breakdown` key holding the tally,
projected here through `statusCount`. -/
def calculate_overall_status (nodes : List GraphNode) : StatusInfo :=
  if nodes = [] then create_status_info "backlogged" (some 0)
  else
    let n := nodes.length
    let avg_progress := Int.fdiv (totalProgress nodes) n
    let overall_state :=
      if 0 < statusCount nodes "broken" then "broken"
      else if 3 * n < 10 * statusCount nodes "blocked" then "blocked"
      else if 0 < statusCount nodes "building" then "building"
      else if statusCount nodes "built" = n then "built"
      else if n < 2 * statusCount nodes "backlogged" then "backlogged"
      else "building"
    { state := overall_state
      progress := avg_progress
      quality := {}
      legacy := { phase := convert_new_to_legacy overall_state } }

end StatusUtils

namespace StatusV3

open StatusUtils

/-- Kernel-computable round-to-nearest (equal to Mathlib `round`). -/
def qround (q : ℚ) : Int := qfloor (q + 1/2)

/-- Round half to even (the tie-breaking used by Python `round`). -/
def roundHalfEven (q : ℚ) : Int :=
  if q - qfloor q = 1/2 then 2 * qround (q / 2) else qround q

/-- Python `round(x, 3)`: scale by 1000, round half to even, scale back. -/
def round3 (q : ℚ) : ℚ := (roundHalfEven (q * 1000) : ℚ) / 1000

/-- The `analytics` sub-dict of an asset (`Option` = key absent). -/
structure Analytics where
  activityLast30Days : Option ℚ := none
  centralityScore : Option ℚ := none
  connectivity : Option ℚ := none
deriving DecidableEq, Repr

/-- The `metadata` sub-dict of an asset (only the key read by
`compute_reliability`). -/
structure AssetMeta where
  authors : Option (List String) := none
deriving DecidableEq, Repr

/-- An asset as consumed by `compute_reliability` in `src/status_v3.py`. -/
structure Asset where
  analytics : Analytics := {}
  metadata : AssetMeta := {}
deriving DecidableEq, Repr

/-- `compute_reliability` from `src/status_v3.py` (lines 31-55).  The float
weights 0.40 / 0.25 / 0.20 / 0.15 are the rationals 2/5, 1/4, 1/5, 3/20;
`round(x, 3)` is `round3`. -/
def compute_reliability (asset : Asset) : ℚ :=
  let activity := asset.analytics.activityLast30Days.getD 0
  let activity_component := min (activity / 50) 1 * (2/5)
  let centrality := asset.analytics.centralityScore.getD 0
  let centrality_component := max 0 (min centrality 1) * (1/4)
  let connectivity := asset.analytics.connectivity.getD 0
  let connectivity_component := min (connectivity / 20) 1 * (1/5)
  let authors := asset.metadata.authors.getD []
  let authors_component := min ((authors.length : ℚ) / 5) 1 * (3/20)
  let reliability := activity_component + centrality_component +
    connectivity_component + authors_component
  round3 (max 0 (min reliability 1))

end StatusV3

namespace Abacus

/-- `ValidationStatus` enum from `src/abacus_validation_system.py`. -/
inductive ValidationStatus where
  | passed
  | failed
  | warning
  | skipped
  | error
deriving DecidableEq, Repr

/-- `ValidationLevel` enum from `src/abacus_validation_system.py`. -/
inductive ValidationLevel where
  | critical
  | high
  | medium
  | low
deriving DecidableEq, Repr

/-- `ValidationRule` dataclass (dependencies field omitted: never read by the
embedded functions). -/
structure ValidationRule where
  rule_id : String
  name : String := ""
  description : String := ""
  level : ValidationLevel := .low
  category : String := ""
  validation_function : String := ""
  threshold : Option ℚ := none
  weight : ℚ := 1
  enabled : Bool := true
deriving DecidableEq, Repr

/-- `ValidationResult` dataclass.  The `details`, `timestamp`,
`execution_time` and `recommendations` fields are omitted: wall-clock data
and free-form payloads, not read by the embedded gate evaluation. -/
structure ValidationResult where
  rule_id : String
  status : ValidationStatus
  score : ℚ
  message : String := ""
deriving DecidableEq, Repr

/-- `QualityGate` dataclass. -/
structure QualityGate where
  gate_id : String
  name : String := ""
  description : String := ""
  rules : List String := []
  threshold : ℚ := 0
  level : ValidationLevel := .low
  enabled : Bool := true
deriving DecidableEq, Repr

/-- `self.validation_rules.get(rule_id, ValidationRule("","","",LOW,"","")).weight`:
the fallback rule carries the dataclass default weight 1.0. -/
def lookupWeight (registry : List ValidationRule) (rid : String) : ℚ :=
  match registry.find? (fun r => r.rule_id == rid) with
  | some r => r.weight
  | none => 1

/-- `next((r for r in validation_results if r.rule_id == rule_id), None)`. -/
def findResult (results : List ValidationResult) (rid : String) :
    Option ValidationResult :=
  results.find? (fun r => r.rule_id == rid)

/-- The `total_score` / `total_weight` accumulation loop of
`_evaluate_quality_gate`: unmatched rule ids leave both accumulators
untouched. -/
def gateTotals (registry : List ValidationRule) (results : List ValidationResult)
    (rids : List String) : ℚ × ℚ :=
  rids.foldl (fun acc rid =>
    match findResult results rid with
    | some r => (acc.1 + r.score * lookupWeight registry rid,
                 acc.2 + lookupWeight registry rid)
    | none => acc) (0, 0)

/-- The dict returned by `_evaluate_quality_gate` (its `details` string,
a float-formatted message, is omitted). -/
structure GateResult where
  gate_id : String
  gate_name : String
  passed : Bool
  score : ℚ
  threshold : ℚ
  rule_results : List (String × ValidationStatus × ℚ)
deriving DecidableEq, Repr

/-- `_evaluate_quality_gate` from `src/abacus_validation_system.py`
(lines 1379-1413): weighted average over matched rules, zero when no
weight accumulated, pass iff score reaches the threshold. -/
def evaluate_quality_gate (registry : List ValidationRule) (gate : QualityGate)
    (results : List ValidationResult) : GateResult :=
  let totals := gateTotals registry results gate.rules
  let gate_score := if 0 < totals.2 then totals.1 / totals.2 else 0
  { gate_id := gate.gate_id
    gate_name := gate.name
    passed := decide (gate.threshold ≤ gate_score)
    score := gate_score
    threshold := gate.threshold
    rule_results := gate.rules.filterMap (fun rid =>
      (findResult results rid).map (fun r => (rid, r.status, r.score))) }

/-- The typed payload a check function returns on success (the dict
`{'status': ..., 'score': ..., 'message': ...}`). -/
structure CheckOutcome where
  status : ValidationStatus
  score : ℚ
  message : String := ""
deriving DecidableEq, Repr

/-- `_execute_validation_rule` from `src/abacus_validation_system.py`
(lines 424-461).  A check is a function that either returns a
`CheckOutcome` or raises (`Except.error` carrying the fault text, which
also covers the `getattr` lookup failing); the `try`/`except` converts a
fault into an `error` result with score 0 and the fault text appended to
the fixed message. -/
def execute_validation_rule {Data : Type}
    (funcs : String → Data → Except String CheckOutcome)
    (rule : ValidationRule) (data : Data) : ValidationResult :=
  match funcs rule.validation_function data with
  | .ok r =>
      { rule_id := rule.rule_id, status := r.status, score := r.score,
        message := r.message }
  | .error e =>
      { rule_id := rule.rule_id, status := .error, score := 0,
        message := "Validation rule execution failed: " ++ e }

/-- The rule loop of `validate_workflow_execution` (lines 352-378): skip
disabled rules, execute each remaining rule, collect every result. -/
def run_validation_rules {Data : Type}
    (funcs : String → Data → Except String CheckOutcome)
    (rules : List ValidationRule) (data : Data) : List ValidationResult :=
  (rules.filter (fun r => r.enabled)).map
    (fun r => execute_validation_rule funcs r data)

/-- The rule ids of a gate that have a matching validation result (the ones
the accumulation loop does not skip). -/
def matchedRules (results : List ValidationResult) (rids : List String) : List String :=
  rids.filter (fun rid => (findResult results rid).isSome)

/-- The score of the first result matching a rule id (0 when absent; only
ever used on matched ids). -/
def matchedScore (results : List ValidationResult) (rid : String) : ℚ :=
  ((findResult results rid).map ValidationResult.score).getD 0

end Abacus

namespace Aggregator

/-- A 3D position dict (`{'x': .., 'y': .., 'z': ..}`). -/
structure Position where
  x : ℚ := 0
  y : ℚ := 0
  z : ℚ := 0
deriving DecidableEq, Repr

/-- The `metadata` sub-dict of a merged node: only the keys written by
`create_unified_config` or read by `create_inter_project_edges`. -/
structure NodeMeta where
  nodeId : String := ""
  category : String := ""
  type : String := ""
  source : String := ""
  repositoryPath : String := ""
  branch : String := ""
  language : String := ""
  parent : String := ""
deriving DecidableEq, Repr

/-- The `stats` sub-dict of a source config (only the key the merge reads). -/
structure ConfigStats where
  totalCommitsLast30Days : ℚ := 0
deriving DecidableEq, Repr

/-- A node of the merged graph (project root or namespaced component). -/
structure MergeNode where
  id : String
  name : String := ""
  type : String := ""
  category : String := ""
  description : String := ""
  status : String := ""
  fileType : String := ""
  tags : List String := []
  metadata : NodeMeta := {}
  stats : ConfigStats := {}
  position : Position := {}
deriving DecidableEq, Repr

/-- The `metadata` sub-dict of an inferred edge. -/
structure EdgeMeta where
  edgeId : String := ""
  type : String := ""
  reason : String := ""
deriving DecidableEq, Repr

/-- An edge of the merged graph.  Python keys `from`/`to` are the Lean
fields `fromId`/`toId` (`from` is a Lean keyword). -/
structure MergeEdge where
  id : String
  fromId : String
  toId : String
  type : String := ""
  label : String := ""
  strength : ℚ := 1
  metadata : EdgeMeta := {}
deriving DecidableEq, Repr

/-- The `metadata` sub-dict of a source config (keys read by the merge). -/
structure ConfigMeta where
  description : Option String := none
  topics : List String := []
deriving DecidableEq, Repr

/-- One loaded `pow3r.v3.status.json` source config, as consumed by
`create_unified_config`; `Option` fields model possibly-absent keys. -/
structure SourceConfig where
  projectName : Option String := none
  status : Option String := none
  source : Option String := none
  repositoryPath : Option String := none
  branch : Option String := none
  metadata : ConfigMeta := {}
  stats : ConfigStats := {}
  nodes : Option (List MergeNode) := none
  edges : Option (List MergeEdge) := none
deriving DecidableEq, Repr

/-- The project root node synthesized for source `idx` of `n_configs`
sources (`src/status_aggregator.py` lines 74-102).  `int(N ** 0.5)` is
`Nat.sqrt`. -/
def project_node (n_configs : ℕ) (idx : ℕ) (config : SourceConfig) : MergeNode :=
  let grid_size := Nat.sqrt n_configs + 1
  let project_name := config.projectName.getD ("Project-" ++ toString idx)
  let x : ℚ := ((idx % grid_size : ℕ) : ℚ) * 200 - (grid_size : ℚ) * 100
  let z : ℚ := ((idx / grid_size : ℕ) : ℚ) * 200 - (grid_size : ℚ) * 100
  { id := "project-" ++ toString idx
    name := project_name
    type := "service.repository"
    category := "Repository"
    description := config.metadata.description.getD (project_name ++ " repository")
    status := config.status.getD "gray"
    fileType := "service.repository"
    tags := config.metadata.topics
    metadata := { nodeId := "project-" ++ toString idx
                  category := "Repository"
                  type := "service"
                  source := config.source.getD "unknown"
                  repositoryPath := config.repositoryPath.getD ""
                  branch := config.branch.getD "main" }
    stats := config.stats
    position := { x := x, y := 0, z := z } }

/-- The per-component rewrite of `create_unified_config` (lines 115-131):
offset the position, prefix the id, point `metadata.parent` at the root. -/
def namespaced_node (project_name : String) (idx : ℕ) (x z : ℚ)
    (node : MergeNode) : MergeNode :=
  { node with
      position := { x := x + node.position.x * (3/10)
                    y := node.position.y
                    z := z + node.position.z * (3/10) }
      id := project_name ++ "-" ++ node.id
      metadata := { node.metadata with parent := "project-" ++ toString idx } }

/-- The per-edge rewrite of `create_unified_config` (lines 134-140): prefix
the edge id and both endpoints with the project name. -/
def namespaced_edge (project_name : String) (edge : MergeEdge) : MergeEdge :=
  { edge with
      id := project_name ++ "-" ++ edge.id
      fromId := project_name ++ "-" ++ edge.fromId
      toId := project_name ++ "-" ++ edge.toId }

/-- All nodes contributed by source `idx`: its synthesized root followed by
its namespaced component nodes (`config.get('nodes', [])`). -/
def config_nodes (n_configs : ℕ) (idx : ℕ) (config : SourceConfig) :
    List MergeNode :=
  let grid_size := Nat.sqrt n_configs + 1
  let project_name := config.projectName.getD ("Project-" ++ toString idx)
  let x : ℚ := ((idx % grid_size : ℕ) : ℚ) * 200 - (grid_size : ℚ) * 100
  let z : ℚ := ((idx / grid_size : ℕ) : ℚ) * 200 - (grid_size : ℚ) * 100
  project_node n_configs idx config ::
    (config.nodes.getD []).map (namespaced_node project_name idx x z)

/-- All edges contributed by source `idx` (`config.get('edges', [])`,
namespaced). -/
def config_edges (idx : ℕ) (config : SourceConfig) : List MergeEdge :=
  (config.edges.getD []).map
    (namespaced_edge (config.projectName.getD ("Project-" ++ toString idx)))

/-- The inferred edge for one ordered pair of project roots
(`src/status_aggregator.py` lines 184-226): shared topics first
(strength 0.3, label naming up to two shared tags), else same non-empty
language (strength 0.2); otherwise nothing.  Python's set intersection is
modelled as order-preserving deduplicated filtering. -/
def pair_edge (edge_id : ℕ) (p1 p2 : MergeNode) : Option MergeEdge :=
  let shared := (p1.tags.filter (fun t => p2.tags.contains t)).dedup
  let lang1 := p1.metadata.language
  let lang2 := p2.metadata.language
  if shared ≠ [] then
    some { id := "inter-edge-" ++ toString edge_id
           fromId := p1.id
           toId := p2.id
           type := "relatedTo"
           label := "Shared: " ++ String.intercalate ", " (shared.take 2)
           strength := 3/10
           metadata := { edgeId := "inter-edge-" ++ toString edge_id
                         type := "relatedTo"
                         reason := "shared_topics" } }
  else if lang1 ≠ "" ∧ lang2 ≠ "" ∧ lang1 = lang2 then
    some { id := "inter-edge-" ++ toString edge_id
           fromId := p1.id
           toId := p2.id
           type := "relatedTo"
           label := "Same language: " ++ lang1
           strength := 1/5
           metadata := { edgeId := "inter-edge-" ++ toString edge_id
                         type := "relatedTo"
                         reason := "same_language" } }
  else none

/-- The inner loop of `create_inter_project_edges`: pair `p1` with every
later project, threading the `edge_id` counter. -/
def inter_inner (p1 : MergeNode) : List MergeNode → ℕ → List MergeEdge × ℕ
  | [], eid => ([], eid)
  | p2 :: rest, eid =>
    match pair_edge eid p1 p2 with
    | some e =>
        let r := inter_inner p1 rest (eid + 1)
        (e :: r.1, r.2)
    | none => inter_inner p1 rest eid

/-- The outer loop of `create_inter_project_edges` over the project list. -/
def inter_outer : List MergeNode → ℕ → List MergeEdge
  | [], _ => []
  | p1 :: rest, eid =>
    let r := inter_inner p1 rest eid
    r.1 ++ inter_outer rest r.2

/-- `create_inter_project_edges` from `src/status_aggregator.py`
(lines 175-228). -/
def create_inter_project_edges (nodes : List MergeNode) : List MergeEdge :=
  inter_outer (nodes.filter (fun n => n.type == "service.repository")) 0

/-- The deterministic content of the unified config built by
`create_unified_config` (lines 57-173).  The hash-of-timestamp `graphId`,
the timestamps and the constant metadata block are omitted (wall-clock
values); `statusCounts` is the status histogram as a function. -/
structure UnifiedConfig where
  totalProjects : ℕ
  totalNodes : ℕ
  totalEdges : ℕ
  totalCommitsLast30Days : ℚ
  statusCounts : String → ℕ
  nodes : List MergeNode
  edges : List MergeEdge

/-- `create_unified_config` from `src/status_aggregator.py` (lines 57-173):
per source, one root node plus namespaced components and edges, then the
inferred inter-project edges appended. -/
def create_unified_config (configs : List SourceConfig) : UnifiedConfig :=
  let all_nodes := configs.enum.flatMap
    (fun p => config_nodes configs.length p.1 p.2)
  let all_edges := configs.enum.flatMap (fun p => config_edges p.1 p.2) ++
    create_inter_project_edges all_nodes
  { totalProjects := configs.length
    totalNodes := all_nodes.length
    totalEdges := all_edges.length
    totalCommitsLast30Days :=
      (configs.map (fun c => c.stats.totalCommitsLast30Days)).sum
    statusCounts := fun s => configs.countP (fun c => c.status.getD "gray" == s)
    nodes := all_nodes
    edges := all_edges }

/-- Whether an unordered pair of project roots qualifies for an inferred
edge: intersecting tag sets, or the same non-empty language. -/
def pair_qualifies (p1 p2 : MergeNode) : Prop :=
  p1.tags.any (fun t => p2.tags.contains t) = true ∨
    (p1.metadata.language ≠ "" ∧ p2.metadata.language ≠ "" ∧
     p1.metadata.language = p2.metadata.language)

instance (p1 p2 : MergeNode) : Decidable (pair_qualifies p1 p2) := by
  unfold pair_qualifies
  infer_instance

/-- The number of qualifying unordered pairs, in loop order. -/
def qualifying_pairs : List MergeNode → ℕ
  | [] => 0
  | p :: rest =>
      rest.countP (fun q => decide (pair_qualifies p q)) + qualifying_pairs rest

/-- Replace absent `nodes`/`edges` keys by explicitly empty lists. -/
def fillMissing (c : SourceConfig) : SourceConfig :=
  { c with nodes := some (c.nodes.getD []), edges := some (c.edges.getD []) }

end Aggregator

/-! ## Helper lemmas -/

section RoundingLemmas

open StatusUtils StatusV3

theorem qfloor_eq_floor (q : ℚ) : qfloor q = ⌊q⌋ := Rat.floor_def.symm

theorem qround_eq_round (q : ℚ) : qround q = round q := by
  rw [qround, qfloor_eq_floor, round_eq]

/-- `roundHalfEven` is within 1/2 of its argument. -/
theorem roundHalfEven_bounds (q : ℚ) :
    q - 1/2 ≤ (roundHalfEven q : ℚ) ∧ (roundHalfEven q : ℚ) ≤ q + 1/2 := by
  unfold roundHalfEven
  rw [qfloor_eq_floor]
  split
  · rename_i h
    have hq : q = (⌊q⌋ : ℚ) + 1/2 := by linarith
    rcases Int.even_or_odd ⌊q⌋ with ⟨m, hm⟩ | ⟨m, hm⟩
    · have h2 : q / 2 = (m : ℚ) + 1/4 := by
        rw [hq, hm]; push_cast; ring
      have : qround (q / 2) = m := by
        rw [qround_eq_round, h2, add_comm, round_add_int]
        norm_num [round_eq]
      rw [this, hq, hm]
      push_cast
      constructor <;> linarith
    · have h2 : q / 2 = (m : ℚ) + 3/4 := by
        rw [hq, hm]; push_cast; ring
      have : qround (q / 2) = m + 1 := by
        rw [qround_eq_round, h2, add_comm, round_add_int]
        norm_num [round_eq]
        omega
      rw [this, hq, hm]
      push_cast
      constructor <;> linarith
  · rw [qround_eq_round]
    have h := abs_sub_round (α := ℚ) q
    rw [abs_le] at h
    constructor <;> linarith [h.1, h.2]

/-- `roundHalfEven` is monotone. -/
theorem roundHalfEven_mono {x y : ℚ} (h : x ≤ y) : roundHalfEven x ≤ roundHalfEven y := by
  by_contra hlt
  push_neg at hlt
  have hx := roundHalfEven_bounds x
  have hy := roundHalfEven_bounds y
  have h1 : (roundHalfEven y : ℚ) + 1 ≤ (roundHalfEven x : ℚ) := by
    exact_mod_cast Int.add_one_le_iff.mpr hlt
  have hxy : x = y := by linarith [hx.2, hy.1]
  rw [hxy] at hlt
  exact absurd hlt (lt_irrefl _)

/-- `round3` is monotone. -/
theorem round3_mono {x y : ℚ} (h : x ≤ y) : round3 x ≤ round3 y := by
  unfold round3
  have hm : roundHalfEven (x * 1000) ≤ roundHalfEven (y * 1000) :=
    roundHalfEven_mono (by linarith)
  have : (roundHalfEven (x * 1000) : ℚ) ≤ (roundHalfEven (y * 1000) : ℚ) := by
    exact_mod_cast hm
  linarith

/-- `round3` maps `[0, 1]` into `[0, 1]`. -/
theorem round3_mem_unit {q : ℚ} (h0 : 0 ≤ q) (h1 : q ≤ 1) :
    0 ≤ round3 q ∧ round3 q ≤ 1 := by
  have hb := roundHalfEven_bounds (q * 1000)
  have hlow : (0 : ℤ) ≤ roundHalfEven (q * 1000) := by
    have : (-1/2 : ℚ) ≤ (roundHalfEven (q * 1000) : ℚ) := by nlinarith [hb.1]
    by_contra hneg
    push_neg at hneg
    have : (roundHalfEven (q * 1000) : ℚ) ≤ -1 := by exact_mod_cast Int.le_sub_one_of_lt hneg
    linarith
  have hhigh : roundHalfEven (q * 1000) ≤ 1000 := by
    by_contra hgt
    push_neg at hgt
    have : (1001 : ℚ) ≤ (roundHalfEven (q * 1000) : ℚ) := by
      exact_mod_cast Int.add_one_le_iff.mpr hgt
    nlinarith [hb.2]
  constructor
  · unfold round3
    have : (0 : ℚ) ≤ (roundHalfEven (q * 1000) : ℚ) := by exact_mod_cast hlow
    positivity
  · unfold round3
    rw [div_le_one (by norm_num)]
    exact_mod_cast hhigh

end RoundingLemmas


/-- A key absent from an association list makes `dictGet` return the default. -/
theorem dictGet_not_mem {α : Type} (m : List (String × α)) (k : String) (d : α)
    (h : k ∉ m.map Prod.fst) : StatusUtils.dictGet m k d = d := by
  unfold StatusUtils.dictGet
  have hf : m.find? (fun p => p.1 == k) = none := by
    rw [List.find?_eq_none]
    intro x hx
    simp only [beq_iff_eq]
    intro hk
    exact h (List.mem_map.mpr ⟨x, hx, hk⟩)
  rw [hf]

section ClaimTheorems

open StatusUtils

/-- C9: `normalize_status` is idempotent: renormalizing the dict returned by
`normalize_status` (which always carries the `state` key) reproduces it
exactly, for every accepted input shape. -/
theorem C9_normalize_idempotent (x : StatusInput) :
    normalize_status (.dict (normalize_status x).toDict) = normalize_status x := rfl

/-- C1: `calculate_overall_status` returns `(backlogged, 0)` on the empty
list; on a non-empty list its progress is the floor division of the summed
normalized progresses by the node count and its state follows the priority
cascade over the per-state tallies (any broken; blocked above 30%;
any building; all built; backlogged above 50%; default building), the
percentage comparisons being strict; and on the three nodes
`(built,100), (building,50), (backlogged,0)` it returns
`(building, 50)`. -/
theorem C1_calculate_overall_status :
    ((calculate_overall_status []).state = "backlogged" ∧
     (calculate_overall_status []).progress = 0) ∧
    (∀ nodes : List GraphNode, nodes ≠ [] →
      (calculate_overall_status nodes).progress =
        Int.fdiv (totalProgress nodes) nodes.length ∧
      (calculate_overall_status nodes).state =
        (if 0 < statusCount nodes "broken" then "broken"
         else if 3 * nodes.length < 10 * statusCount nodes "blocked" then "blocked"
         else if 0 < statusCount nodes "building" then "building"
         else if statusCount nodes "built" = nodes.length then "built"
         else if nodes.length < 2 * statusCount nodes "backlogged" then "backlogged"
         else "building")) ∧
    ((calculate_overall_status
        [ { status := some (.dict { state := some "built", progress := some 100 }) },
          { status := some (.dict { state := some "building", progress := some 50 }) },
          { status := some (.dict { state := some "backlogged", progress := some 0 }) } ]).state
        = "building" ∧
     (calculate_overall_status
        [ { status := some (.dict { state := some "built", progress := some 100 }) },
          { status := some (.dict { state := some "building", progress := some 50 }) },
          { status := some (.dict { state := some "backlogged", progress := some 0 }) } ]).progress
        = 50) := by
  refine ⟨by decide, ?_, by decide⟩
  intro nodes h
  rw [calculate_overall_status, if_neg h]
  exact ⟨rfl, rfl⟩

/-- C1 witness: the non-empty branch applied to a concrete singleton list. -/
theorem C1_calculate_overall_status_witness :
    ([({ status := some (.str "built") } : GraphNode)] ≠ []) ∧
    ((calculate_overall_status [{ status := some (.str "built") }]).progress =
        Int.fdiv (totalProgress [{ status := some (.str "built") }])
          ([({ status := some (.str "built") } : GraphNode)]).length ∧
      (calculate_overall_status [{ status := some (.str "built") }]).state =
        (if 0 < statusCount [{ status := some (.str "built") }] "broken" then "broken"
         else if 3 * ([({ status := some (.str "built") } : GraphNode)]).length <
             10 * statusCount [{ status := some (.str "built") }] "blocked" then "blocked"
         else if 0 < statusCount [{ status := some (.str "built") }] "building" then "building"
         else if statusCount [{ status := some (.str "built") }] "built" =
             ([({ status := some (.str "built") } : GraphNode)]).length then "built"
         else if ([({ status := some (.str "built") } : GraphNode)]).length <
             2 * statusCount [{ status := some (.str "built") }] "backlogged" then "backlogged"
         else "building")) :=
  ⟨by decide, C1_calculate_overall_status.2.1 _ (by decide)⟩

/-- C5 counterexample: on the unknown status string `"bogus"` the code keeps
the input string as `legacy.phase` instead of the claimed `"gray"`. -/
theorem C5_counterexample :
    (normalize_status (.str "bogus")).state = "backlogged" ∧
    (normalize_status (.str "bogus")).progress = 0 ∧
    (normalize_status (.str "bogus")).legacy.phase = "bogus" ∧
    (normalize_status (.str "bogus")).legacy.phase ≠ "gray" := by
  decide

/-- C5 amended: missing input (neither string nor dict with `state`/`phase`)
normalizes to `state=backlogged, progress=0, legacy.phase=gray`; a string
outside both the 6-state and 4-phase sets normalizes to
`state=backlogged, progress=0`, with `legacy.phase` equal to the input
string itself. -/
theorem C5_unknown_input_defaults :
    (normalize_status .missing =
      { state := "backlogged", progress := 0, quality := {},
        legacy := { phase := "gray" } }) ∧
    (∀ d : StatusDict, d.state = none → d.phase = none →
      normalize_status (.dict d) =
        { state := "backlogged", progress := 0, quality := {},
          legacy := { phase := "gray" } }) ∧
    (∀ s : String, s ∉ new_statuses → s ∉ LEGACY_TO_NEW.map Prod.fst →
      (normalize_status (.str s)).state = "backlogged" ∧
      (normalize_status (.str s)).progress = 0 ∧
      (normalize_status (.str s)).legacy.phase = s) := by
  refine ⟨rfl, ?_, ?_⟩
  · intro d h1 h2
    rw [normalize_status, h1, h2]
  · intro s h1 h2
    have hg : s ≠ "green" := by intro h; rw [h] at h2; simp [LEGACY_TO_NEW] at h2
    have ho : s ≠ "orange" := by intro h; rw [h] at h2; simp [LEGACY_TO_NEW] at h2
    rw [normalize_status, if_neg h1]
    refine ⟨?_, ?_, rfl⟩
    · exact dictGet_not_mem _ _ _ h2
    · simp [hg, ho]

/-- C5 witness: the amended claim applied to the dict with neither key and to
the concrete unknown string `"bogus"`. -/
theorem C5_unknown_input_defaults_witness :
    (({} : StatusDict).state = none ∧ ({} : StatusDict).phase = none ∧
      normalize_status (.dict {}) =
        { state := "backlogged", progress := 0, quality := {},
          legacy := { phase := "gray" } }) ∧
    ("bogus" ∉ new_statuses ∧ "bogus" ∉ LEGACY_TO_NEW.map Prod.fst ∧
      ((normalize_status (.str "bogus")).state = "backlogged" ∧
       (normalize_status (.str "bogus")).progress = 0 ∧
       (normalize_status (.str "bogus")).legacy.phase = "bogus")) :=
  ⟨⟨rfl, rfl, C5_unknown_input_defaults.2.1 {} rfl rfl⟩,
   by decide, by decide, C5_unknown_input_defaults.2.2 "bogus" (by decide) (by decide)⟩

/-- C6 counterexample: on the legacy dict with `completeness = 0.999` the
code truncates (`int(completeness * 100)` gives 99) while the claimed
`round(completeness × 100)` is 100. -/
theorem C6_counterexample :
    (normalize_status (.dict { phase := some "orange",
                               completeness := some (999/1000) })).progress = 99 ∧
    round ((999/1000 : ℚ) * 100) = 100 := by
  constructor
  · norm_num [normalize_status, pyInt, qfloor_eq_floor]
  · norm_num [round_eq]

/-- C6 amended: for every legacy-format dict (`phase` present, `state`
absent) the state is mapped through the LEGACY-to-NEW table
(green to built, orange to building, red to broken, gray to backlogged) and
`progress = int(completeness × 100)` — truncation toward zero, not
rounding; the scenario `{phase: orange, completeness: 0.75,
qualityScore: 0.85}` normalizes to `state=building, progress=75,
quality.qualityScore=0.85, legacy.phase=orange`. -/
theorem C6_legacy_dict_normalization :
    (∀ (d : StatusDict) (ph : String), d.state = none → d.phase = some ph →
      (normalize_status (.dict d)).state = convert_legacy_to_new ph ∧
      (normalize_status (.dict d)).progress =
        pyInt (d.completeness.getD (1/2) * 100) ∧
      (normalize_status (.dict d)).legacy =
        { phase := ph, completeness := some (d.completeness.getD (1/2)) }) ∧
    (convert_legacy_to_new "green" = "built" ∧
     convert_legacy_to_new "orange" = "building" ∧
     convert_legacy_to_new "red" = "broken" ∧
     convert_legacy_to_new "gray" = "backlogged") ∧
    (normalize_status (.dict { phase := some "orange", completeness := some (3/4),
                               qualityScore := some (17/20) }) =
      { state := "building", progress := 75,
        quality := { qualityScore := some (17/20), notes := some "" },
        legacy := { phase := "orange", completeness := some (3/4) } }) := by
  refine ⟨?_, by decide, ?_⟩
  · intro d ph h1 h2
    rw [normalize_status, h1, h2]
    exact ⟨rfl, rfl, rfl⟩
  · norm_num [normalize_status, pyInt, qfloor_eq_floor]
    rfl

/-- C6 witness: the amended legacy-dict rule applied at the scenario input. -/
theorem C6_legacy_dict_normalization_witness :
    (({ phase := some "orange", completeness := some (3/4) } : StatusDict).state = none ∧
     ({ phase := some "orange", completeness := some (3/4) } : StatusDict).phase = some "orange") ∧
    ((normalize_status (.dict { phase := some "orange", completeness := some (3/4) })).state =
        convert_legacy_to_new "orange" ∧
     (normalize_status (.dict { phase := some "orange", completeness := some (3/4) })).progress =
        pyInt (({ phase := some "orange", completeness := some (3/4) } :
          StatusDict).completeness.getD (1/2) * 100) ∧
     (normalize_status (.dict { phase := some "orange", completeness := some (3/4) })).legacy =
        { phase := "orange",
          completeness := some (({ phase := some "orange", completeness := some (3/4) } :
            StatusDict).completeness.getD (1/2)) }) :=
  ⟨⟨rfl, rfl⟩, C6_legacy_dict_normalization.1 _ "orange" rfl rfl⟩

end ClaimTheorems

/-- Monotonicity of the clamp-then-round pipeline shared by the reliability
score. -/
theorem reliability_pipeline_mono {S T : ℚ} (h : S ≤ T) :
    StatusV3.round3 (max 0 (min S 1)) ≤ StatusV3.round3 (max 0 (min T 1)) :=
  round3_mono (max_le_max le_rfl (min_le_min h le_rfl))

section ClaimTheoremsB

open StatusV3

/-- C3: `compute_reliability` equals the weighted sum of the four capped,
normalized components (activity over 50 at weight 0.40, clamped centrality
at 0.25, connectivity over 20 at 0.20, author count over 5 at 0.15),
clamped to the unit interval and rounded to 3 decimals; it always lies in
the unit interval and is monotone non-decreasing in each of the four
inputs with the others fixed. -/
theorem C3_compute_reliability :
    (∀ a : Asset,
      compute_reliability a =
        round3 (max 0 (min
          (min (a.analytics.activityLast30Days.getD 0 / 50) 1 * (2/5) +
           max 0 (min (a.analytics.centralityScore.getD 0) 1) * (1/4) +
           min (a.analytics.connectivity.getD 0 / 20) 1 * (1/5) +
           min (((a.metadata.authors.getD []).length : ℚ) / 5) 1 * (3/20)) 1))) ∧
    (∀ a : Asset, 0 ≤ compute_reliability a ∧ compute_reliability a ≤ 1) ∧
    (∀ (x x' : ℚ) (c k : Option ℚ) (au : Option (List String)), x ≤ x' →
      compute_reliability ⟨⟨some x, c, k⟩, ⟨au⟩⟩ ≤
        compute_reliability ⟨⟨some x', c, k⟩, ⟨au⟩⟩) ∧
    (∀ (x : Option ℚ) (c c' : ℚ) (k : Option ℚ) (au : Option (List String)), c ≤ c' →
      compute_reliability ⟨⟨x, some c, k⟩, ⟨au⟩⟩ ≤
        compute_reliability ⟨⟨x, some c', k⟩, ⟨au⟩⟩) ∧
    (∀ (x c : Option ℚ) (k k' : ℚ) (au : Option (List String)), k ≤ k' →
      compute_reliability ⟨⟨x, c, some k⟩, ⟨au⟩⟩ ≤
        compute_reliability ⟨⟨x, c, some k'⟩, ⟨au⟩⟩) ∧
    (∀ (x c k : Option ℚ) (au au' : List String), au.length ≤ au'.length →
      compute_reliability ⟨⟨x, c, k⟩, ⟨some au⟩⟩ ≤
        compute_reliability ⟨⟨x, c, k⟩, ⟨some au'⟩⟩) := by
  refine ⟨fun a => rfl, ?_, ?_, ?_, ?_, ?_⟩
  · intro a
    simp only [compute_reliability]
    exact round3_mem_unit (le_max_left _ _) (max_le (by norm_num) (min_le_right _ _))
  · intro x x' c k au h
    simp only [compute_reliability, Option.getD_some]
    apply reliability_pipeline_mono
    gcongr
  · intro x c c' k au h
    simp only [compute_reliability, Option.getD_some]
    apply reliability_pipeline_mono
    gcongr
  · intro x c k k' au h
    simp only [compute_reliability, Option.getD_some]
    apply reliability_pipeline_mono
    gcongr
  · intro x c k au au' h
    simp only [compute_reliability, Option.getD_some]
    apply reliability_pipeline_mono
    have hc : ((au.length : ℚ)) ≤ ((au'.length : ℚ)) := by exact_mod_cast h
    gcongr

/-- C3 witness: unit-interval bound and activity monotonicity evaluated on a
concrete asset. -/
theorem C3_compute_reliability_witness :
    ((0:ℚ) ≤ 1) ∧
    compute_reliability ⟨⟨some 0, none, none⟩, ⟨none⟩⟩ ≤
      compute_reliability ⟨⟨some 1, none, none⟩, ⟨none⟩⟩ :=
  ⟨by norm_num, C3_compute_reliability.2.2.1 0 1 none none none (by norm_num)⟩

end ClaimTheoremsB

section GateLemmas

open Abacus

/-- The accumulation loop of `_evaluate_quality_gate`, characterized as a
pair of sums over the matched rule ids (for any initial accumulator). -/
theorem gateTotals_aux (registry : List ValidationRule)
    (results : List ValidationResult) (rids : List String) (init : ℚ × ℚ) :
    rids.foldl (fun acc rid =>
      match findResult results rid with
      | some r => (acc.1 + r.score * lookupWeight registry rid,
                   acc.2 + lookupWeight registry rid)
      | none => acc) init =
    (init.1 + ((matchedRules results rids).map
       (fun rid => matchedScore results rid * lookupWeight registry rid)).sum,
     init.2 + ((matchedRules results rids).map
       (fun rid => lookupWeight registry rid)).sum) := by
  induction rids generalizing init with
  | nil => simp [matchedRules]
  | cons rid rest ih =>
    rw [List.foldl_cons]
    cases hf : findResult results rid with
    | none =>
      rw [ih]
      simp [matchedRules, List.filter_cons, hf]
    | some r =>
      rw [ih]
      simp only [matchedRules, List.filter_cons, hf, Option.isSome_some, if_pos,
        List.map_cons, List.sum_cons, matchedScore, Option.map_some, Option.getD_some]
      refine Prod.ext ?_ ?_ <;> simp <;> ring

theorem gateTotals_eq (registry : List ValidationRule)
    (results : List ValidationResult) (rids : List String) :
    gateTotals registry results rids =
      (((matchedRules results rids).map
         (fun rid => matchedScore results rid * lookupWeight registry rid)).sum,
       ((matchedRules results rids).map
         (fun rid => lookupWeight registry rid)).sum) := by
  have h := gateTotals_aux registry results rids (0, 0)
  simpa [gateTotals] using h

/-- Restricting a `filterMap` over option-matched rule ids to the matched
ids does not change it. -/
theorem filterMap_matchedRules {α : Type} (results : List ValidationResult)
    (rids : List String) (g : String → ValidationResult → α) :
    (matchedRules results rids).filterMap
        (fun rid => (findResult results rid).map (g rid)) =
      rids.filterMap (fun rid => (findResult results rid).map (g rid)) := by
  induction rids with
  | nil => rfl
  | cons rid rest ih =>
    cases hf : findResult results rid with
    | none => simpa [matchedRules, List.filter_cons, List.filterMap_cons, hf] using ih
    | some r => simpa [matchedRules, List.filter_cons, List.filterMap_cons, hf] using ih

/-- Every weight the gate evaluation looks up is nonnegative when the
registry's weights are. -/
theorem lookupWeight_nonneg (registry : List ValidationRule)
    (hweight : ∀ r ∈ registry, 0 ≤ r.weight) (rid : String) :
    0 ≤ lookupWeight registry rid := by
  unfold lookupWeight
  cases hf : registry.find? (fun r => r.rule_id == rid) with
  | none => norm_num
  | some r => exact hweight r (List.mem_of_find?_eq_some hf)

/-- Every matched score is in the unit interval when all result scores are. -/
theorem matchedScore_mem_unit (results : List ValidationResult)
    (hscore : ∀ r ∈ results, 0 ≤ r.score ∧ r.score ≤ 1) (rid : String) :
    0 ≤ matchedScore results rid ∧ matchedScore results rid ≤ 1 := by
  unfold matchedScore findResult
  cases hf : results.find? (fun r => r.rule_id == rid) with
  | none => norm_num
  | some r =>
    simpa using hscore r (List.mem_of_find?_eq_some hf)

end GateLemmas

section ClaimTheoremsC

open Abacus

/-- C2: a gate rule id with no matching validation result is excluded from
the weighted average (evaluating the gate on just its matched rule ids
gives the identical result); over the matched rules the score is the
weight-weighted average of the result scores; the score lies in the unit
interval (given unit-interval result scores and nonnegative rule
weights); and the gate passes exactly when its score reaches the
threshold, boundary included. -/
theorem C2_evaluate_quality_gate
    (registry : List ValidationRule) (gate : QualityGate)
    (results : List ValidationResult)
    (hscore : ∀ r ∈ results, 0 ≤ r.score ∧ r.score ≤ 1)
    (hweight : ∀ r ∈ registry, 0 ≤ r.weight) :
    (evaluate_quality_gate registry gate results =
      evaluate_quality_gate registry
        { gate with rules := matchedRules results gate.rules } results) ∧
    (0 < ((matchedRules results gate.rules).map
        (fun rid => lookupWeight registry rid)).sum →
      (evaluate_quality_gate registry gate results).score =
        ((matchedRules results gate.rules).map
          (fun rid => matchedScore results rid * lookupWeight registry rid)).sum /
        ((matchedRules results gate.rules).map
          (fun rid => lookupWeight registry rid)).sum) ∧
    (0 ≤ (evaluate_quality_gate registry gate results).score ∧
      (evaluate_quality_gate registry gate results).score ≤ 1) ∧
    ((evaluate_quality_gate registry gate results).passed = true ↔
      gate.threshold ≤ (evaluate_quality_gate registry gate results).score) := by
  have hmm : matchedRules results (matchedRules results gate.rules) =
      matchedRules results gate.rules := by
    unfold matchedRules
    rw [List.filter_filter]
    simp
  have hS0 : 0 ≤ ((matchedRules results gate.rules).map
      (fun rid => matchedScore results rid * lookupWeight registry rid)).sum := by
    apply List.sum_nonneg
    intro q hq
    obtain ⟨rid, _, rfl⟩ := List.mem_map.mp hq
    exact mul_nonneg (matchedScore_mem_unit results hscore rid).1
      (lookupWeight_nonneg registry hweight rid)
  have hW0 : 0 ≤ ((matchedRules results gate.rules).map
      (fun rid => lookupWeight registry rid)).sum := by
    apply List.sum_nonneg
    intro q hq
    obtain ⟨rid, _, rfl⟩ := List.mem_map.mp hq
    exact lookupWeight_nonneg registry hweight rid
  have hSW : ((matchedRules results gate.rules).map
      (fun rid => matchedScore results rid * lookupWeight registry rid)).sum ≤
      ((matchedRules results gate.rules).map
        (fun rid => lookupWeight registry rid)).sum := by
    apply List.sum_le_sum
    intro rid _
    exact mul_le_of_le_one_left (lookupWeight_nonneg registry hweight rid)
      (matchedScore_mem_unit results hscore rid).2
  refine ⟨?_, ?_, ?_, ?_⟩
  · unfold evaluate_quality_gate
    rw [gateTotals_eq, gateTotals_eq]
    simp only [hmm]
    rw [filterMap_matchedRules]
  · intro hpos
    unfold evaluate_quality_gate
    rw [gateTotals_eq]
    simp only [hpos, if_pos]
  · unfold evaluate_quality_gate
    rw [gateTotals_eq]
    simp only
    split
    · rename_i hpos
      constructor
      · exact div_nonneg hS0 (le_of_lt hpos)
      · rw [div_le_one hpos]
        exact hSW
    · norm_num
  · unfold evaluate_quality_gate
    simp [decide_eq_true_eq]

/-- C2 witness: a gate listing one matched and one unmatched rule id,
evaluated over a singleton result list and a singleton registry. -/
theorem C2_evaluate_quality_gate_witness :
    (∀ r ∈ [({ rule_id := "a", status := .passed, score := 1/2 } : ValidationResult)],
      0 ≤ r.score ∧ r.score ≤ 1) ∧
    (∀ r ∈ [({ rule_id := "a", weight := 2 } : ValidationRule)], 0 ≤ r.weight) ∧
    (0 ≤ (evaluate_quality_gate [{ rule_id := "a", weight := 2 }]
        { gate_id := "g", rules := ["a", "b"], threshold := 1/4 }
        [{ rule_id := "a", status := .passed, score := 1/2 }]).score ∧
      (evaluate_quality_gate [{ rule_id := "a", weight := 2 }]
        { gate_id := "g", rules := ["a", "b"], threshold := 1/4 }
        [{ rule_id := "a", status := .passed, score := 1/2 }]).score ≤ 1) := by
  have h1 : ∀ r ∈ [({ rule_id := "a", status := .passed, score := 1/2 } : ValidationResult)],
      0 ≤ r.score ∧ r.score ≤ 1 := by
    intro r hr
    rw [List.mem_singleton] at hr
    subst hr
    norm_num
  have h2 : ∀ r ∈ [({ rule_id := "a", weight := 2 } : ValidationRule)], 0 ≤ r.weight := by
    intro r hr
    rw [List.mem_singleton] at hr
    subst hr
    norm_num
  exact ⟨h1, h2, (C2_evaluate_quality_gate _ _ _ h1 h2).2.2.1⟩

/-- C10: a gate none of whose rule ids matches any supplied result gets
score exactly 0, passes exactly when its threshold is at most 0, and in
particular fails whenever the threshold is positive. -/
theorem C10_gate_without_results (registry : List ValidationRule)
    (gate : QualityGate) (results : List ValidationResult)
    (h : ∀ rid ∈ gate.rules, findResult results rid = none) :
    (evaluate_quality_gate registry gate results).score = 0 ∧
    ((evaluate_quality_gate registry gate results).passed = true ↔
      gate.threshold ≤ 0) ∧
    (0 < gate.threshold →
      (evaluate_quality_gate registry gate results).passed = false) := by
  have hmatch : matchedRules results gate.rules = [] := by
    unfold matchedRules
    rw [List.filter_eq_nil_iff]
    intro rid hr
    simp [h rid hr]
  have hscore : (evaluate_quality_gate registry gate results).score = 0 := by
    unfold evaluate_quality_gate
    rw [gateTotals_eq, hmatch]
    norm_num
  refine ⟨hscore, ?_, ?_⟩
  · unfold evaluate_quality_gate at hscore ⊢
    rw [gateTotals_eq, hmatch] at hscore ⊢
    simp only [decide_eq_true_eq]
    norm_num
  · intro hpos
    unfold evaluate_quality_gate
    rw [gateTotals_eq, hmatch]
    simp only [List.map_nil, List.sum_nil, lt_irrefl, if_neg]
    simp only [decide_eq_false_iff_not]
    norm_num
    linarith

/-- C10 witness: a one-rule gate evaluated against an empty result list. -/
theorem C10_gate_without_results_witness :
    (∀ rid ∈ ({ gate_id := "g", rules := ["a"], threshold := 1/2 } :
        QualityGate).rules, findResult [] rid = none) ∧
    ((evaluate_quality_gate [] { gate_id := "g", rules := ["a"], threshold := 1/2 } []).score = 0 ∧
     ((evaluate_quality_gate [] { gate_id := "g", rules := ["a"], threshold := 1/2 } []).passed = true ↔
       ({ gate_id := "g", rules := ["a"], threshold := 1/2 } : QualityGate).threshold ≤ 0) ∧
     (0 < ({ gate_id := "g", rules := ["a"], threshold := 1/2 } : QualityGate).threshold →
       (evaluate_quality_gate [] { gate_id := "g", rules := ["a"], threshold := 1/2 } []).passed = false)) := by
  have h : ∀ rid ∈ ({ gate_id := "g", rules := ["a"], threshold := 1/2 } :
      QualityGate).rules, findResult [] rid = none := by
    intro rid _
    rfl
  exact ⟨h, C10_gate_without_results [] _ [] h⟩

/-- C4: a rule whose check raises is converted into a `ValidationResult`
with status `error`, score 0 and a message containing the fault text, and
the run still produces one result for every enabled rule — the faulting
rule included — so a single failing check never aborts the run. -/
theorem C4_check_fault_isolated {Data : Type}
    (funcs : String → Data → Except String CheckOutcome)
    (rules : List ValidationRule) (data : Data)
    (rule : ValidationRule) (e : String)
    (hmem : rule ∈ rules) (hen : rule.enabled = true)
    (hfault : funcs rule.validation_function data = .error e) :
    (execute_validation_rule funcs rule data =
      { rule_id := rule.rule_id, status := .error, score := 0,
        message := "Validation rule execution failed: " ++ e }) ∧
    (∃ pre, (execute_validation_rule funcs rule data).message = pre ++ e) ∧
    ((run_validation_rules funcs rules data).length =
      (rules.filter (fun r => r.enabled)).length) ∧
    (({ rule_id := rule.rule_id, status := .error, score := 0,
        message := "Validation rule execution failed: " ++ e } : ValidationResult) ∈
      run_validation_rules funcs rules data) := by
  have hexec : execute_validation_rule funcs rule data =
      { rule_id := rule.rule_id, status := .error, score := 0,
        message := "Validation rule execution failed: " ++ e } := by
    unfold execute_validation_rule
    rw [hfault]
  refine ⟨hexec, ⟨"Validation rule execution failed: ", by rw [hexec]⟩, ?_, ?_⟩
  · unfold run_validation_rules
    rw [List.length_map]
  · unfold run_validation_rules
    exact List.mem_map.mpr ⟨rule, List.mem_filter.mpr ⟨hmem, hen⟩, hexec⟩

/-- C4 witness: a single always-faulting check over a one-rule registry. -/
theorem C4_check_fault_isolated_witness :
    (({ rule_id := "r1" } : ValidationRule) ∈ [({ rule_id := "r1" } : ValidationRule)] ∧
     ({ rule_id := "r1" } : ValidationRule).enabled = true ∧
     (fun (_ : String) (_ : Unit) =>
       (.error "boom" : Except String CheckOutcome)) ({ rule_id := "r1" } :
         ValidationRule).validation_function () = .error "boom") ∧
    ((execute_validation_rule (fun _ _ => .error "boom") { rule_id := "r1" } () =
      { rule_id := "r1", status := .error, score := 0,
        message := "Validation rule execution failed: " ++ "boom" }) ∧
     (∃ pre, (execute_validation_rule (fun _ _ => .error "boom")
        { rule_id := "r1" } ()).message = pre ++ "boom") ∧
     ((run_validation_rules (fun _ _ => .error "boom") [{ rule_id := "r1" }] ()).length =
       (([{ rule_id := "r1" }] : List ValidationRule).filter (fun r => r.enabled)).length) ∧
     (({ rule_id := "r1", status := .error, score := 0,
         message := "Validation rule execution failed: " ++ "boom" } : ValidationResult) ∈
       run_validation_rules (fun _ _ => .error "boom") [{ rule_id := "r1" }] ())) :=
  ⟨⟨List.mem_singleton.mpr rfl, rfl, rfl⟩,
   C4_check_fault_isolated (fun _ _ => .error "boom") [{ rule_id := "r1" }] ()
     { rule_id := "r1" } "boom" (List.mem_singleton.mpr rfl) rfl rfl⟩

end ClaimTheoremsC

section MergeLemmas

open Aggregator

/-- Flattening a mapped list. -/
theorem flatMap_map_eq {α β γ : Type} (l : List α) (f : α → β) (g : β → List γ) :
    (l.map f).flatMap g = l.flatMap (fun a => g (f a)) := by
  induction l with
  | nil => rfl
  | cons a t ih => simp [ih]

/-- The deduplicated shared-tag list is nonempty exactly when some tag of
`p1` occurs among the tags of `p2`. -/
theorem shared_ne_nil_iff (p1 p2 : MergeNode) :
    ((p1.tags.filter (fun t => p2.tags.contains t)).dedup ≠ []) ↔
      p1.tags.any (fun t => p2.tags.contains t) = true := by
  simp [List.dedup_eq_nil, List.filter_eq_nil_iff, List.any_eq_true]

/-- An inferred edge exists for a pair exactly when the pair qualifies. -/
theorem pair_edge_isSome_iff (eid : ℕ) (p1 p2 : MergeNode) :
    (pair_edge eid p1 p2).isSome = true ↔ pair_qualifies p1 p2 := by
  simp only [pair_edge]
  split
  · rename_i h
    simp only [Option.isSome_some, true_iff]
    exact Or.inl ((shared_ne_nil_iff p1 p2).mp h)
  · rename_i h
    rw [not_ne_iff] at h
    split
    · rename_i h2
      simp only [Option.isSome_some, true_iff]
      exact Or.inr h2
    · rename_i h2
      simp only [Option.isSome_none, Bool.false_eq_true, false_iff]
      rintro (hl | hr)
      · exact absurd h ((shared_ne_nil_iff p1 p2).mpr hl)
      · exact h2 hr

/-- The inner pairing loop emits one edge per qualifying partner and
advances the counter by the same amount. -/
theorem inter_inner_spec (p1 : MergeNode) (rest : List MergeNode) (eid : ℕ) :
    (inter_inner p1 rest eid).1.length =
        rest.countP (fun q => decide (pair_qualifies p1 q)) ∧
      (inter_inner p1 rest eid).2 =
        eid + rest.countP (fun q => decide (pair_qualifies p1 q)) := by
  induction rest generalizing eid with
  | nil => simp [inter_inner]
  | cons q rest ih =>
    rw [inter_inner]
    cases hpe : pair_edge eid p1 q with
    | some e =>
      have hq : pair_qualifies p1 q :=
        (pair_edge_isSome_iff eid p1 q).mp (by rw [hpe]; rfl)
      have h := ih (eid + 1)
      refine ⟨?_, ?_⟩
      · simp [h.1, List.countP_cons, hq]
      · simp [h.2, List.countP_cons, hq]
        omega
    | none =>
      have hq : ¬ pair_qualifies p1 q := by
        intro hq
        have h := (pair_edge_isSome_iff eid p1 q).mpr hq
        rw [hpe] at h
        exact Bool.false_ne_true h
      have h := ih eid
      simp [List.countP_cons, hq, h.1, h.2]

/-- The outer pairing loop emits exactly one edge per qualifying unordered
pair. -/
theorem inter_outer_length (ps : List MergeNode) (eid : ℕ) :
    (inter_outer ps eid).length = qualifying_pairs ps := by
  induction ps generalizing eid with
  | nil => rfl
  | cons p rest ih =>
    rw [inter_outer, qualifying_pairs, List.length_append,
      (inter_inner_spec p rest eid).1, ih]

end MergeLemmas

section ClaimTheoremsD

open Aggregator

/-- C7: the merged edge list is all namespaced input edges followed by the
inferred inter-project edges; its length is the sum of the input edge
counts plus exactly one edge per qualifying unordered root pair; an
inferred edge exists for a pair exactly when the tag sets intersect or
both roots carry the same non-empty language, carrying strength 0.3 and a
label naming up to 2 shared tags in the shared-tag case (which takes
precedence) and strength 0.2 with a language label otherwise; and merging
two sources whose roots are tagged (python, cli) and (python, web) yields
exactly one inferred relatedTo edge of strength 0.3 whose label names
python. -/
theorem C7_merged_edges :
    (∀ configs : List SourceConfig,
      (create_unified_config configs).edges =
        configs.enum.flatMap (fun p => config_edges p.1 p.2) ++
          create_inter_project_edges (create_unified_config configs).nodes) ∧
    (∀ configs : List SourceConfig,
      (create_unified_config configs).edges.length =
        (configs.map (fun c => (c.edges.getD []).length)).sum +
          qualifying_pairs ((create_unified_config configs).nodes.filter
            (fun n => n.type == "service.repository"))) ∧
    (∀ (eid : ℕ) (p1 p2 : MergeNode),
      (pair_edge eid p1 p2).isSome = true ↔ pair_qualifies p1 p2) ∧
    (∀ (eid : ℕ) (p1 p2 : MergeNode) (e : MergeEdge), pair_edge eid p1 p2 = some e →
      e.type = "relatedTo" ∧
      ((p1.tags.filter (fun t => p2.tags.contains t)).dedup ≠ [] →
        e.strength = 3/10 ∧
        e.label = "Shared: " ++ String.intercalate ", "
          ((p1.tags.filter (fun t => p2.tags.contains t)).dedup.take 2)) ∧
      ((p1.tags.filter (fun t => p2.tags.contains t)).dedup = [] →
        e.strength = 1/5 ∧ e.label = "Same language: " ++ p1.metadata.language)) ∧
    ((create_unified_config
        [ { projectName := some "A", metadata := { topics := ["python", "cli"] } },
          { projectName := some "B", metadata := { topics := ["python", "web"] } } ]).edges =
      [ { id := "inter-edge-0", fromId := "project-0", toId := "project-1",
          type := "relatedTo", label := "Shared: python", strength := 3/10,
          metadata := { edgeId := "inter-edge-0", type := "relatedTo",
                        reason := "shared_topics" } } ]) := by
  refine ⟨fun _ => rfl, ?_, pair_edge_isSome_iff, ?_, rfl⟩
  · intro configs
    have h1 : (create_unified_config configs).edges =
        configs.enum.flatMap (fun p => config_edges p.1 p.2) ++
          create_inter_project_edges (create_unified_config configs).nodes := rfl
    rw [h1, List.length_append]
    congr 1
    · rw [List.length_flatMap]
      have h2 : (List.length ∘ fun p : ℕ × SourceConfig => config_edges p.1 p.2) =
          ((fun c : SourceConfig => (c.edges.getD []).length) ∘ Prod.snd) := by
        funext p
        simp [config_edges]
      rw [h2, ← List.map_map, List.enum_map_snd]
    · exact inter_outer_length _ 0
  · intro eid p1 p2 e h
    simp only [pair_edge] at h
    split at h
    · rename_i hs
      rw [Option.some.injEq] at h
      subst h
      exact ⟨rfl, fun _ => ⟨rfl, rfl⟩, fun hc => absurd hc hs⟩
    · rename_i hs
      rw [not_ne_iff] at hs
      split at h
      · rename_i h2
        rw [Option.some.injEq] at h
        subst h
        exact ⟨rfl, fun hc => absurd hs hc, fun _ => ⟨rfl, rfl⟩⟩
      · exact absurd h (by simp)

/-- C7 witness: the per-pair rule applied to a concrete pair of roots with
one shared tag. -/
theorem C7_merged_edges_witness :
    (pair_edge 0 { id := "x", tags := ["t"] } { id := "y", tags := ["t"] } =
      some { id := "inter-edge-0", fromId := "x", toId := "y",
             type := "relatedTo", label := "Shared: t", strength := 3/10,
             metadata := { edgeId := "inter-edge-0", type := "relatedTo",
                           reason := "shared_topics" } }) ∧
    (({ id := "inter-edge-0", fromId := "x", toId := "y",
        type := "relatedTo", label := "Shared: t", strength := 3/10,
        metadata := { edgeId := "inter-edge-0", type := "relatedTo",
                      reason := "shared_topics" } } : MergeEdge).type = "relatedTo" ∧
     ((({ id := "x", tags := ["t"] } : MergeNode).tags.filter
         (fun t => ({ id := "y", tags := ["t"] } : MergeNode).tags.contains t)).dedup ≠ [] →
       ({ id := "inter-edge-0", fromId := "x", toId := "y",
          type := "relatedTo", label := "Shared: t", strength := 3/10,
          metadata := { edgeId := "inter-edge-0", type := "relatedTo",
                        reason := "shared_topics" } } : MergeEdge).strength = 3/10 ∧
       ({ id := "inter-edge-0", fromId := "x", toId := "y",
          type := "relatedTo", label := "Shared: t", strength := 3/10,
          metadata := { edgeId := "inter-edge-0", type := "relatedTo",
                        reason := "shared_topics" } } : MergeEdge).label =
         "Shared: " ++ String.intercalate ", "
           ((({ id := "x", tags := ["t"] } : MergeNode).tags.filter
             (fun t => ({ id := "y", tags := ["t"] } : MergeNode).tags.contains t)).dedup.take 2)) ∧
     ((({ id := "x", tags := ["t"] } : MergeNode).tags.filter
         (fun t => ({ id := "y", tags := ["t"] } : MergeNode).tags.contains t)).dedup = [] →
       ({ id := "inter-edge-0", fromId := "x", toId := "y",
          type := "relatedTo", label := "Shared: t", strength := 3/10,
          metadata := { edgeId := "inter-edge-0", type := "relatedTo",
                        reason := "shared_topics" } } : MergeEdge).strength = 1/5 ∧
       ({ id := "inter-edge-0", fromId := "x", toId := "y",
          type := "relatedTo", label := "Shared: t", strength := 3/10,
          metadata := { edgeId := "inter-edge-0", type := "relatedTo",
                        reason := "shared_topics" } } : MergeEdge).label =
         "Same language: " ++ ({ id := "x", tags := ["t"] } : MergeNode).metadata.language)) :=
  ⟨rfl, C7_merged_edges.2.2.2.1 0 { id := "x", tags := ["t"] }
    { id := "y", tags := ["t"] } _ rfl⟩

/-- C8 counterexample: a source whose `nodes`/`edges` keys are absent is not
skipped — its synthesized project root node still appears in the merged
graph (named after the source), contradicting the claim that such a source
contributes nothing and triggers a skip. -/
theorem C8_counterexample :
    ((create_unified_config [{ projectName := some "alpha" }]).nodes.map
        (fun n => n.name) = ["alpha"]) ∧
    ((create_unified_config [{ projectName := some "alpha" }]).nodes.length = 1) ∧
    ((create_unified_config [{ projectName := some "alpha" }]).edges = []) :=
  ⟨rfl, rfl, rfl⟩

/-- C8 amended: a source graph missing its `nodes`/`edges` keys contributes
no component nodes and no edges — the missing keys silently default to
empty lists, and the merge over all sources still completes with the same
result as if they were empty; the source is not skipped, though: its
synthesized project root node is still added, and no warning is issued. -/
theorem C8_missing_graph_keys :
    (∀ configs : List SourceConfig,
      (create_unified_config (configs.map fillMissing)).nodes =
        (create_unified_config configs).nodes ∧
      (create_unified_config (configs.map fillMissing)).edges =
        (create_unified_config configs).edges ∧
      (create_unified_config (configs.map fillMissing)).totalProjects =
        (create_unified_config configs).totalProjects) ∧
    (∀ (n idx : ℕ) (c : SourceConfig), c.nodes = none →
      config_nodes n idx c = [project_node n idx c]) ∧
    (∀ (idx : ℕ) (c : SourceConfig), c.edges = none → config_edges idx c = []) := by
  refine ⟨?_, ?_, ?_⟩
  · intro configs
    have hnodes : (configs.map fillMissing).enum.flatMap
          (fun p => config_nodes (configs.map fillMissing).length p.1 p.2) =
        configs.enum.flatMap (fun p => config_nodes configs.length p.1 p.2) := by
      rw [List.length_map, List.enum_map, flatMap_map_eq]
      rfl
    have hedges : (configs.map fillMissing).enum.flatMap
          (fun p => config_edges p.1 p.2) =
        configs.enum.flatMap (fun p => config_edges p.1 p.2) := by
      rw [List.enum_map, flatMap_map_eq]
      rfl
    refine ⟨hnodes, ?_, by simp [create_unified_config]⟩
    show (configs.map fillMissing).enum.flatMap (fun p => config_edges p.1 p.2) ++
        create_inter_project_edges ((configs.map fillMissing).enum.flatMap
          (fun p => config_nodes (configs.map fillMissing).length p.1 p.2)) =
      configs.enum.flatMap (fun p => config_edges p.1 p.2) ++
        create_inter_project_edges (configs.enum.flatMap
          (fun p => config_nodes configs.length p.1 p.2))
    rw [hnodes, hedges]
  · intro n idx c hc
    simp [config_nodes, hc]
  · intro idx c hc
    simp [config_edges, hc]

/-- C8 witness: the amended claim applied to a concrete one-source merge
with both keys absent. -/
theorem C8_missing_graph_keys_witness :
    (({ projectName := some "alpha" } : SourceConfig).nodes = none ∧
      config_nodes 1 0 { projectName := some "alpha" } =
        [project_node 1 0 { projectName := some "alpha" }]) ∧
    (({ projectName := some "alpha" } : SourceConfig).edges = none ∧
      config_edges 0 { projectName := some "alpha" } = []) :=
  ⟨⟨rfl, C8_missing_graph_keys.2.1 1 0 _ rfl⟩,
   ⟨rfl, C8_missing_graph_keys.2.2 0 _ rfl⟩⟩

end ClaimTheoremsD
